import Mathlib

/-!
# Verification of the `@bitfocusas/api` endpoint-registration core

Shallow embedding of `src/api-server.ts` (validation pipeline, auth
resolver, response guard, endpoint registrar) and `src/validate.ts`
(error classes).  JSON-ish values are modelled by `JValue`; the subset of
Zod schemas the library manipulates (object schemas with string/number/
boolean/coerced-number fields, `.optional()`, `.default()`, `.strict()`)
is modelled by `ZodSchema` / `FieldSchema` with `safeParse` following
Zod's documented semantics for that subset.
-/

namespace BitfocusApi

/-- A JSON-like runtime value (query/body/params/response payloads). -/
inductive JValue where
  | str (s : String)
  | num (n : Int)
  | bool (b : Bool)
  | obj (fields : List (String × JValue))
deriving Repr

/-- Schema for a single object field: the Zod combinators used by the
library's callers (`z.string()`, `z.number()`, `z.boolean()`,
`z.coerce.number()`, `.default(d)`, `.optional()`). -/
inductive FieldSchema where
  | fstr
  | fnum
  | fbool
  | fcoerceNum
  | fdefault (base : FieldSchema) (d : JValue)
  | foptional (base : FieldSchema)
deriving Repr

/-- Decimal digits to a natural number. -/
def digitsToNat (l : List Char) : Nat :=
  l.foldl (fun acc c => acc * 10 + (c.toNat - 48)) 0

/-- Parse a decimal integer string (the fragment of JS `Number(...)`
coercion exercised by `z.coerce.number()` on integral input). -/
def parseIntString (s : String) : Option Int :=
  match s.data with
  | [] => none
  | '-' :: ds =>
      if ds = [] ∨ ¬ ds.all Char.isDigit then none
      else some (-(digitsToNat ds : Int))
  | ds =>
      if ¬ ds.all Char.isDigit then none
      else some (digitsToNat ds : Int)

/-- Parse one present field value against its field schema.
`none` means a validation issue for that field. -/
def parseFieldValue : FieldSchema → JValue → Option JValue
  | .fstr, .str s => some (.str s)
  | .fstr, _ => none
  | .fnum, .num n => some (.num n)
  | .fnum, _ => none
  | .fbool, .bool b => some (.bool b)
  | .fbool, _ => none
  | .fcoerceNum, .num n => some (.num n)
  | .fcoerceNum, .str s => (parseIntString s).map .num
  | .fcoerceNum, .bool b => some (.num (if b then 1 else 0))
  | .fcoerceNum, .obj _ => none
  | .fdefault base _, v => parseFieldValue base v
  | .foptional base, v => parseFieldValue base v

/-- Outcome for an absent field: `.ok none` = stays absent (optional),
`.ok (some w)` = defaulted to `w`, `.error ()` = required but missing. -/
def absentParse : FieldSchema → Except Unit (Option JValue)
  | .fdefault base d =>
      match parseFieldValue base d with
      | some w => .ok (some w)
      | none => .error ()
  | .foptional _ => .ok none
  | _ => .error ()

/-- One Zod validation issue (path into the value and a message). -/
structure ZodIssue where
  path : List String
  message : String
deriving Repr, DecidableEq

/-- A Zod schema as used by the library: either an object schema (with an
unknown-keys strictness flag, `false` = Zod's default strip mode) or a
non-object schema that accepts anything (`z.any()`-like), which
`applyStrict` leaves untouched. -/
inductive ZodSchema where
  | zobject (fields : List (String × FieldSchema)) (strict : Bool)
  | zany
deriving Repr

/-- `applyStrict` from `api-server.ts`: applies `.strict()` only to
object schemas, leaving any other schema unchanged. -/
def applyStrict : ZodSchema → ZodSchema
  | .zobject fields _ => .zobject fields true
  | .zany => .zany

/-- First binding of a key in a field list (JS object property lookup). -/
def lookupField (name : String) : List (String × JValue) → Option JValue
  | [] => none
  | (k, v) :: rest => if k = name then some v else lookupField name rest

/-- Parse the declared fields of an object schema, in schema order,
collecting issues and the validated (coerced/defaulted) output fields. -/
def parseFields : List (String × FieldSchema) → List (String × JValue) →
    List ZodIssue × List (String × JValue)
  | [], _ => ([], [])
  | (name, fs) :: rest, input =>
      let r := parseFields rest input
      match lookupField name input with
      | some v =>
          match parseFieldValue fs v with
          | some w => (r.1, (name, w) :: r.2)
          | none => (⟨[name], "Invalid input"⟩ :: r.1, r.2)
      | none =>
          match absentParse fs with
          | .ok none => r
          | .ok (some w) => (r.1, (name, w) :: r.2)
          | .error _ => (⟨[name], "Required"⟩ :: r.1, r.2)

/-- Keys of the input not declared by the schema (in input order). -/
def unknownKeys (declared : List String) (input : List (String × JValue)) :
    List String :=
  (input.map Prod.fst).filter (fun k => ¬ declared.contains k)

/-- Quote each key and join with commas, as in Zod's unrecognized-keys
message. -/
def quoteJoin : List String → String
  | [] => ""
  | [k] => "'" ++ k ++ "'"
  | k :: rest => "'" ++ k ++ "', " ++ quoteJoin rest

/-- Zod's strict-mode message naming every unrecognized key. -/
def unrecognizedMsg (keys : List String) : String :=
  "Unrecognized key(s) in object: " ++ quoteJoin keys

/-- `schema.safeParse(value)`: Zod parsing for the modelled subset.
Object schemas validate each declared field (with coercion and
defaults); in strict mode an extra issue (at the object's own path, i.e.
`[]`) lists every unrecognized key, while in strip mode unknown keys are
silently dropped.  Success returns the validated output value. -/
def safeParse : ZodSchema → JValue → Except (List ZodIssue) JValue
  | .zany, v => .ok v
  | .zobject fields strict, .obj input =>
      let r := parseFields fields input
      let unk := unknownKeys (fields.map Prod.fst) input
      let allIssues :=
        r.1 ++ (if strict ∧ unk ≠ [] then [⟨[], unrecognizedMsg unk⟩] else [])
      if allIssues = [] then .ok (.obj r.2) else .error allIssues
  | .zobject _ _, _ => .error [⟨[], "Expected object, received other"⟩]

/-! ## Auth resolver (`authenticateToken`, api-server.ts lines 610-664) -/

/-- Result from a custom API token validator function
(`AuthValidationResult<TContext>`). -/
structure AuthValidationResult (Ctx : Type) where
  valid : Bool
  context : Option Ctx := none
  error : Option String := none

/-- A raw inbound request, as seen by the registrar's wrappers:
the unvalidated query/body/params payloads, the `Authorization` header
(`none` = header absent), and any auth context already on the request. -/
structure RawRequest (Ctx : Type) where
  url : String
  method : String
  query : JValue
  body : JValue
  params : JValue
  authHeader : Option String
  auth : Option Ctx := none

/-- The `apiToken` configuration: a shared-secret string or a custom
validator function over `(token, request)`. -/
inductive ApiTokenCfg (Ctx : Type) where
  | secret (s : String)
  | validator (f : String → RawRequest Ctx → AuthValidationResult Ctx)

/-- Outcome of the auth middleware: an early error reply, or permission
to continue with an optional new auth context to attach (`none` = leave
`request.auth` untouched, as the string branch and a context-less
validator result do). -/
inductive AuthOutcome (Ctx : Type) where
  | reject (status : Nat) (error : String) (message : String)
  | allow (context : Option Ctx)

/-- JS `header.split(' ')` on a single-space separator: splits at every
space, keeping empty segments (so `"Bearer "` splits to
`["Bearer", ""]`). -/
def splitSpaceAux : List Char → List Char → List String
  | [], acc => [String.mk acc.reverse]
  | c :: rest, acc =>
      if c = ' ' then String.mk acc.reverse :: splitSpaceAux rest []
      else splitSpaceAux rest (c :: acc)

/-- JS `s.split(' ')`. -/
def jsSplitSpace (s : String) : List String := splitSpaceAux s.data []

/-- JS `result.error || 'Invalid token'` (api-server.ts line 644): the
fallback applies when the error is absent OR falsy, i.e. the empty
string. -/
def errorOrInvalid (e : Option String) : String :=
  match e with
  | some s => if s = "" then "Invalid token" else s
  | none => "Invalid token"

/-- `authenticateToken` from `api-server.ts`: missing (or falsy, i.e.
empty) header → 401 missing-credential; header not exactly two
space-separated parts with scheme `Bearer` → 401 format error; then the
extracted token is checked by exact comparison against a secret string
(mismatch → 403 "Invalid token") or by the configured validator function
(invalid → 403 with its error message when that is non-empty, else the
"Invalid token" fallback — JS `||` treats an empty string as falsy;
valid → continue, attaching the supplied context if any). -/
def authenticateToken (cfg : ApiTokenCfg Ctx) (request : RawRequest Ctx) :
    AuthOutcome Ctx :=
  match request.authHeader with
  | none => .reject 401 "Unauthorized" "Missing authorization header"
  | some h =>
      if h = "" then .reject 401 "Unauthorized" "Missing authorization header"
      else
        match jsSplitSpace h with
        | [p0, p1] =>
            if p0 = "Bearer" then
              match cfg with
              | .secret s =>
                  if p1 = s then .allow none
                  else .reject 403 "Forbidden" "Invalid token"
              | .validator f =>
                  let r := f p1 request
                  if r.valid then .allow r.context
                  else .reject 403 "Forbidden" (errorOrInvalid r.error)
            else .reject 401 "Unauthorized"
              "Invalid authorization header format. Expected: Bearer <token>"
        | _ => .reject 401 "Unauthorized"
            "Invalid authorization header format. Expected: Bearer <token>"

/-! ## Validated handler and endpoint pipeline
(`createEndpoint` / `validatedHandler`, api-server.ts lines 405-595) -/

/-- One `{field, message}` entry of a `ValidationError` /
`ResponseValidationError` details list. -/
structure FieldError where
  field : String
  message : String
deriving Repr, DecidableEq

/-- The exceptions `validatedHandler`'s catch block distinguishes
(`NotFoundError`, `ValidationError`, `ResponseValidationError` from
`validate.ts`) plus an unrecognized exception with an opaque name. -/
inductive Exc where
  | notFound (message : String)
  | validationErr (details : List FieldError)
  | responseValidationErr (details : List FieldError)
  | other (name : String)
deriving Repr

/-- A handler run either returns a response value or throws. -/
inductive HandlerOutcome where
  | ok (v : JValue)
  | throws (e : Exc)

/-- The typed request the handler observes: the three validated parts
(`none` = `undefined` for an undeclared part) and the auth context. -/
structure TypedRequest (Ctx : Type) where
  query : Option JValue
  body : Option JValue
  params : Option JValue
  auth : Option Ctx

/-- An endpoint definition (`EndpointConfig`): method, url, optional
part schemas, response schema, optional operationId override, auth flag
and the handler. -/
structure EndpointConfig (Ctx : Type) where
  method : String
  url : String
  query : Option ZodSchema := none
  body : Option ZodSchema := none
  params : Option ZodSchema := none
  response : ZodSchema
  operationId : Option String := none
  authenticated : Bool := false
  handler : TypedRequest Ctx → HandlerOutcome

/-- What is sent back for one request: a 200 success payload, a
structured error reply `{statusCode, error, message, details?}`, or an
exception re-thrown to Fastify's generic error handler. -/
inductive Reply where
  | success (v : JValue)
  | errorReply (statusCode : Nat) (error : String) (message : String)
      (details : Option (List FieldError))
  | rethrown (name : String)
deriving Repr

/-- The `console.error` record emitted when response validation fails:
it echoes the request url, method, the Zod issues and the raw response
value. -/
inductive LogEntry where
  | respValidationFailure (url : String) (method : String)
      (errors : List ZodIssue) (response : JValue)

/-- The pipeline steps of the registrar, in their wired order. -/
inductive Step where
  | authCheck
  | requestValidation
  | handlerInvocation
  | responseGuard
  | transmission
deriving Repr, DecidableEq

/-- The full fixed order of steps for an endpoint (auth only when the
endpoint is marked authenticated). -/
def fixedOrder (cfg : EndpointConfig Ctx) : List Step :=
  (if cfg.authenticated then [Step.authCheck] else []) ++
    [Step.requestValidation, Step.handlerInvocation, Step.responseGuard,
      Step.transmission]

/-- Everything observable about one request's processing: the reply,
the executed pipeline steps in order, the exact request the handler was
invoked with (if it was), and emitted log records. -/
structure PipelineResult (Ctx : Type) where
  reply : Reply
  trace : List Step
  handlerInput : Option (TypedRequest Ctx)
  logs : List LogEntry

/-- `path.join('.')`. -/
def joinDot (path : List String) : String := String.intercalate "." path

/-- `err.path.join('.') || 'root'` (JS: empty string is falsy). -/
def joinDotOrRoot (path : List String) : String :=
  if joinDot path = "" then "root" else joinDot path

/-- Map a Zod issue of one request part to a `ValidationError` detail,
prefixing the origin: `field: query.${err.path.join('.')}`. -/
def fieldErrorOfIssue (origin : String) (i : ZodIssue) : FieldError :=
  ⟨origin ++ "." ++ joinDot i.path, i.message⟩

/-- Validate one request part: undeclared parts pass through as
`undefined`; declared parts are made strict and parsed, a failure
throwing a `ValidationError` whose details carry the origin prefix. -/
def validatePart (origin : String) :
    Option ZodSchema → JValue → Except (List FieldError) (Option JValue)
  | none, _ => .ok none
  | some s, v =>
      match safeParse (applyStrict s) v with
      | .error issues => .error (issues.map (fieldErrorOfIssue origin))
      | .ok w => .ok (some w)

/-- The request-validation phase of `validatedHandler`: query, then
body, then params; the first failing part throws, discarding the rest
(the later validators are not consulted). -/
def validateRequest (cfg : EndpointConfig Ctx) (req : RawRequest Ctx) :
    Except (List FieldError) (Option JValue × Option JValue × Option JValue) := do
  let vq ← validatePart "query" cfg.query req.query
  let vb ← validatePart "body" cfg.body req.body
  let vp ← validatePart "params" cfg.params req.params
  .ok (vq, vb, vp)

/-- The registrar's mapping of caught exceptions to replies
(api-server.ts lines 507-541): `NotFoundError` → 404 with its message,
`ValidationError` → 400 with its details, `ResponseValidationError` →
500, anything else re-thrown to the framework error handler. -/
def replyForException : Exc → Reply
  | .notFound msg => .errorReply 404 "Not Found" msg none
  | .validationErr d => .errorReply 400 "Bad Request" "Validation failed" (some d)
  | .responseValidationErr d =>
      .errorReply 500 "Internal Server Error"
        "Response validation failed - server returned invalid data" (some d)
  | .other name => .rethrown name

/-- `validatedHandler`: validate the request parts (throwing on the
first failure), build the typed request the handler observes
(overwriting query/body/params with the validated values), run the
handler, guard its result against the strict response schema (logging
and mapping a mismatch to a 500 `ResponseValidationError`), and
transmit. -/
def validatedHandler (cfg : EndpointConfig Ctx) (req : RawRequest Ctx) :
    PipelineResult Ctx :=
  match validateRequest cfg req with
  | .error d =>
      { reply := .errorReply 400 "Bad Request" "Validation failed" (some d),
        trace := [.requestValidation], handlerInput := none, logs := [] }
  | .ok (vq, vb, vp) =>
      let tr : TypedRequest Ctx := ⟨vq, vb, vp, req.auth⟩
      match cfg.handler tr with
      | .throws e =>
          { reply := replyForException e,
            trace := [.requestValidation, .handlerInvocation],
            handlerInput := some tr, logs := [] }
      | .ok result =>
          match safeParse (applyStrict cfg.response) result with
          | .error issues =>
              { reply := .errorReply 500 "Internal Server Error"
                  "Response validation failed - server returned invalid data"
                  (some (issues.map fun i => ⟨joinDotOrRoot i.path, i.message⟩)),
                trace := [.requestValidation, .handlerInvocation, .responseGuard],
                handlerInput := some tr,
                logs := [.respValidationFailure req.url req.method issues result] }
          | .ok _ =>
              { reply := .success result,
                trace := [.requestValidation, .handlerInvocation,
                  .responseGuard, .transmission],
                handlerInput := some tr, logs := [] }

/-- The registered route's behaviour: the auth preHandler runs first
when the endpoint is authenticated (a reject sends its error reply and
nothing else; an accepted validator context is attached to the
request), then `validatedHandler`. -/
def runEndpoint (tok : ApiTokenCfg Ctx) (cfg : EndpointConfig Ctx)
    (req : RawRequest Ctx) : PipelineResult Ctx :=
  if cfg.authenticated then
    match authenticateToken tok req with
    | .reject st e m =>
        { reply := .errorReply st e m none, trace := [.authCheck],
          handlerInput := none, logs := [] }
    | .allow ctx =>
        let req2 : RawRequest Ctx :=
          { req with auth := match ctx with | some c => some c | none => req.auth }
        let r := validatedHandler cfg req2
        { r with trace := .authCheck :: r.trace }
  else validatedHandler cfg req

/-! ## Operation id generation (`generateOperationId`, api-server.ts
lines 31-36, and its use at lines 544-546) -/

/-- ASCII lowercasing of one character (JS `toLowerCase` restricted to
ASCII, which is all the code relies on). -/
def lowerChar (c : Char) : Char :=
  if 'A' ≤ c ∧ c ≤ 'Z' then Char.ofNat (c.toNat + 32) else c

/-- JS `s.toLowerCase()` (ASCII fragment). -/
def toLowerStr (s : String) : String := String.mk (s.data.map lowerChar)

/-- JS `^\/` anchored replacement on a character list: drop the head
when it is a slash. -/
def dropLeadSlash (l : List Char) : List Char :=
  match l with
  | [] => []
  | c :: rest => if c = '/' then rest else c :: rest

/-- JS `s.replace(/^\//, '')`: drop a single leading slash. -/
def stripLeadingSlash (s : String) : String :=
  String.mk (dropLeadSlash s.data)

/-- JS `s.replace(/\//g, '_')`: every slash becomes an underscore. -/
def replaceSlashes (s : String) : String :=
  String.mk (s.data.map fun c => if c = '/' then '_' else c)

/-- `generateOperationId(url, method)`: strip one leading slash,
lowercase, replace remaining slashes with underscores, then append an
underscore and the lowercase method. -/
def generateOperationId (url : String) (method : String) : String :=
  let cleanUrl := toLowerStr (stripLeadingSlash url)
  let pathPart := replaceSlashes cleanUrl
  pathPart ++ "_" ++ toLowerStr method

/-- `endpointConfig.config?.operationId || autoGeneratedOperationId`:
JS `||` falls back on a falsy (empty) override. -/
def selectOperationId (override : Option String) (auto : String) : String :=
  match override with
  | some s => if s = "" then auto else s
  | none => auto

/-- The operation id registered for an endpoint. -/
def operationIdFor (cfg : EndpointConfig Ctx) : String :=
  selectOperationId cfg.operationId (generateOperationId cfg.url cfg.method)

/-- The operation id normalization in the spec's wording and step order
(§4.4): URL lowercased, then the leading slash stripped, then remaining
slashes replaced with underscores, suffixed with the lowercase method. -/
def specOperationId (url : String) (method : String) : String :=
  replaceSlashes (stripLeadingSlash (toLowerStr url)) ++ "_" ++ toLowerStr method

/-- A well-formed schema in the sense JS guarantees for free: object
schemas declare each field name at most once (JS object literal keys are
unique). -/
def schemaFieldsNodup : ZodSchema → Prop
  | .zobject fields _ => (fields.map Prod.fst).Nodup
  | .zany => True

instance schemaFieldsNodupDec : (s : ZodSchema) → Decidable (schemaFieldsNodup s)
  | .zobject fields _ => inferInstanceAs (Decidable (fields.map Prod.fst).Nodup)
  | .zany => inferInstanceAs (Decidable True)

/-! ## Concrete endpoints and requests for witnesses/counterexamples -/

/-- An endpoint declaring query `{q: number}` and body `{b: number}`. -/
def cfgQB : EndpointConfig Nat :=
  { method := "POST", url := "/t",
    query := some (.zobject [("q", .fnum)] false),
    body := some (.zobject [("b", .fnum)] false),
    response := .zany, handler := fun _ => .ok (.obj []) }

/-- An endpoint declaring only params `{p: number}`. -/
def cfgP : EndpointConfig Nat :=
  { method := "GET", url := "/t",
    params := some (.zobject [("p", .fnum)] false),
    response := .zany, handler := fun _ => .ok (.obj []) }

/-- An endpoint with no declared parts and an any-typed response. -/
def cfgPlain : EndpointConfig Nat :=
  { method := "GET", url := "/t", response := .zany,
    handler := fun _ => .ok (.obj []) }

/-- An authenticated endpoint with no declared parts. -/
def cfgAuth : EndpointConfig Nat :=
  { method := "GET", url := "/t", response := .zany, authenticated := true,
    handler := fun _ => .ok (.obj []) }

/-- An endpoint whose handler returns `{ok: 1}` against a declared
response schema `{ok: string}` (a response-schema mismatch). -/
def cfgBadResp : EndpointConfig Nat :=
  { method := "GET", url := "/bad", response := .zobject [("ok", .fstr)] false,
    handler := fun _ => .ok (.obj [("ok", .num 1)]) }

/-- An endpoint whose handler throws, parameterized by the exception. -/
def cfgThrow (e : Exc) : EndpointConfig Nat :=
  { method := "GET", url := "/t", response := .zany,
    handler := fun _ => .throws e }

/-- A request with no auth header whose raw parts are empty objects. -/
def reqPlain : RawRequest Nat :=
  { url := "/t", method := "GET", query := .obj [], body := .obj [],
    params := .obj [], authHeader := none }

/-- A request carrying raw data in all parts (for the overwrite claim). -/
def reqJunk : RawRequest Nat :=
  { url := "/t", method := "GET", query := .obj [("junk", .str "x")],
    body := .obj [("a", .num 1)], params := .obj [("b", .bool true)],
    authHeader := none }

/-- A request whose query is invalid (`q` is a string, not a number) and
whose body is also invalid (`b` is missing). -/
def reqQbadBbad : RawRequest Nat :=
  { url := "/t", method := "POST", query := .obj [("q", .str "x")],
    body := .obj [], params := .obj [], authHeader := none }

/-- A request whose query is valid but whose body is invalid. -/
def reqQokBbad : RawRequest Nat :=
  { url := "/t", method := "POST", query := .obj [("q", .num 1)],
    body := .obj [], params := .obj [], authHeader := none }

/-- `reqPlain` with a given Authorization header. -/
def reqAuth (h : String) : RawRequest Nat :=
  { reqPlain with authHeader := some h }

/-- A sample custom token validator: accepts `"good"` with context `7`,
rejects anything else with a custom message. -/
def exValidator : String → RawRequest Nat → AuthValidationResult Nat :=
  fun tk _ =>
    if tk = "good" then ⟨true, some 7, none⟩
    else ⟨false, none, some "Bad token"⟩

/-- A validator that rejects every token with a present-but-empty error
string (exercising the falsy fallback of JS `||`). -/
def exValidatorEmptyErr : String → RawRequest Nat → AuthValidationResult Nat :=
  fun _ _ => ⟨false, none, some ""⟩

/-- A schema exercising coercion and defaulting:
`{a: z.coerce.number(), b: z.string().default("d")}`. -/
def exIdemSchema : ZodSchema :=
  .zobject [("a", .fcoerceNum), ("b", .fdefault .fstr (.str "d"))] false

/-! ## Theorems -/

/-- `'A' ≤ c ≤ 'Z'` gives the ASCII codepoint bounds. -/
lemma char_upper_bounds {c : Char} (h : 'A' ≤ c ∧ c ≤ 'Z') :
    65 ≤ c.toNat ∧ c.toNat ≤ 90 := by
  obtain ⟨h1, h2⟩ := h
  simp [Char.le_def, UInt32.le_def, BitVec.le_def] at h1 h2
  exact ⟨h1, h2⟩

/-- Lowercasing never produces a slash from a non-slash. -/
lemma lowerChar_eq_slash {c : Char} (h : lowerChar c = '/') : c = '/' := by
  unfold lowerChar at h
  split at h
  · rename_i hc
    obtain ⟨h1, h2⟩ := char_upper_bounds hc
    set n := c.toNat with hn
    interval_cases n <;> exact absurd h (by decide)
  · exact h

/-- Dropping a leading slash commutes with per-character lowercasing. -/
lemma dropLeadSlash_map_lower (l : List Char) :
    dropLeadSlash (l.map lowerChar) = (dropLeadSlash l).map lowerChar := by
  cases l with
  | nil => rfl
  | cons c cs =>
      by_cases hc : c = '/'
      · subst hc
        simp [dropLeadSlash, show lowerChar '/' = '/' from rfl]
      · have hlc : lowerChar c ≠ '/' := fun h => hc (lowerChar_eq_slash h)
        simp [dropLeadSlash, hc, hlc]

/-- Stripping the leading slash commutes with lowercasing the string. -/
lemma strip_lower_comm (s : String) :
    stripLeadingSlash (toLowerStr s) = toLowerStr (stripLeadingSlash s) := by
  unfold stripLeadingSlash toLowerStr
  cases s with
  | mk data => simp [dropLeadSlash_map_lower]

/-- C7 (counterexample): the generated id for `GET /users/:id` is
`users_:id_get` (the colon is untouched), not `users__id_get` as the
claim states; and an explicitly supplied empty-string override is not
used (the auto-generated id wins through JS `||`). -/
theorem C7_counterexample :
    generateOperationId "/users/:id" "GET" ≠ "users__id_get" ∧
    generateOperationId "/users/:id" "GET" = "users_:id_get" ∧
    selectOperationId (some "") (generateOperationId "/users/:id" "GET") =
      "users_:id_get" := by
  refine ⟨by decide, by decide, by decide⟩

/-- C7 (amended): without an override the operation id equals the spec's
normalization — URL lowercased, leading slash stripped, remaining
slashes replaced by underscores, lowercase method appended after an
underscore — in particular `GET /users/:id` auto-generates as
`users_:id_get` (path-parameter colons are preserved, not replaced);
a caller-supplied non-empty override is used instead, while an empty
override falls back to the generated id. -/
theorem C7_operation_id_amended :
    (∀ url method : String,
      generateOperationId url method = specOperationId url method) ∧
    generateOperationId "/users/:id" "GET" = "users_:id_get" ∧
    (∀ o auto : String, o ≠ "" → selectOperationId (some o) auto = o) ∧
    (∀ auto : String, selectOperationId none auto = auto) := by
  refine ⟨?_, by decide, ?_, fun _ => rfl⟩
  · intro url method
    unfold generateOperationId specOperationId
    rw [strip_lower_comm]
  · intro o auto ho
    simp [selectOperationId, ho]

/-- C7 amended witness: concrete instances discharging the hypotheses of
`C7_operation_id_amended`. -/
theorem C7_operation_id_amended_witness :
    generateOperationId "/users/:id" "GET" = specOperationId "/users/:id" "GET" ∧
    selectOperationId (some "customId") "auto_id" = "customId" ∧
    selectOperationId none "auto_id" = "auto_id" :=
  ⟨C7_operation_id_amended.1 "/users/:id" "GET",
   C7_operation_id_amended.2.2.1 "customId" "auto_id" (by decide),
   C7_operation_id_amended.2.2.2 "auto_id"⟩

/-! ### Auth resolver lemmas (C2, C10) -/

lemma jsSplitSpace_empty : jsSplitSpace "" = [""] := rfl

/-- Missing (or empty, hence falsy) Authorization header. -/
lemma auth_missing {Ctx : Type} (tok : ApiTokenCfg Ctx) (req : RawRequest Ctx)
    (hh : req.authHeader = none ∨ req.authHeader = some "") :
    authenticateToken tok req =
      .reject 401 "Unauthorized" "Missing authorization header" := by
  rcases hh with hh | hh <;> simp [authenticateToken, hh]

/-- Header present but not `Bearer` plus exactly one token. -/
lemma auth_format {Ctx : Type} (tok : ApiTokenCfg Ctx) (req : RawRequest Ctx)
    (h : String) (hh : req.authHeader = some h) (hne : h ≠ "")
    (hsp : ∀ t, jsSplitSpace h ≠ ["Bearer", t]) :
    authenticateToken tok req = .reject 401 "Unauthorized"
      "Invalid authorization header format. Expected: Bearer <token>" := by
  simp only [authenticateToken, hh]
  rw [if_neg hne]
  rcases hl : jsSplitSpace h with _ | ⟨p0, _ | ⟨p1, _ | _⟩⟩
  · rfl
  · rfl
  · by_cases hb : p0 = "Bearer"
    · subst hb; exact absurd hl (hsp _)
    · simp [hb]
  · rfl

/-- String-configured token, extracted token differs. -/
lemma auth_secret_mismatch {Ctx : Type} (s : String) (req : RawRequest Ctx)
    (h t : String) (hh : req.authHeader = some h)
    (hsp : jsSplitSpace h = ["Bearer", t]) (hne : t ≠ s) :
    authenticateToken (.secret s) req =
      .reject 403 "Forbidden" "Invalid token" := by
  have hne0 : h ≠ "" := by
    intro h0; subst h0; rw [jsSplitSpace_empty] at hsp; simp at hsp
  simp [authenticateToken, hh, hne0, hsp, hne]

/-- Function-configured validator rejecting the token: the reply uses
the validator's error message when non-empty, else the fallback. -/
lemma auth_validator_invalid {Ctx : Type}
    (f : String → RawRequest Ctx → AuthValidationResult Ctx)
    (req : RawRequest Ctx) (h t : String) (hh : req.authHeader = some h)
    (hsp : jsSplitSpace h = ["Bearer", t]) (hv : (f t req).valid = false) :
    authenticateToken (.validator f) req =
      .reject 403 "Forbidden" (errorOrInvalid (f t req).error) := by
  have hne0 : h ≠ "" := by
    intro h0; subst h0; rw [jsSplitSpace_empty] at hsp; simp at hsp
  simp [authenticateToken, hh, hne0, hsp, hv]

/-- Function-configured validator accepting the token. -/
lemma auth_validator_valid {Ctx : Type}
    (f : String → RawRequest Ctx → AuthValidationResult Ctx)
    (req : RawRequest Ctx) (h t : String) (hh : req.authHeader = some h)
    (hsp : jsSplitSpace h = ["Bearer", t]) (hv : (f t req).valid = true) :
    authenticateToken (.validator f) req = .allow (f t req).context := by
  have hne0 : h ≠ "" := by
    intro h0; subst h0; rw [jsSplitSpace_empty] at hsp; simp at hsp
  simp [authenticateToken, hh, hne0, hsp, hv]

/-- A successfully validated request reaches the handler with exactly
the validated parts and the request's auth context. -/
lemma validatedHandler_ok {Ctx : Type} (cfg : EndpointConfig Ctx)
    (req : RawRequest Ctx) (vq vb vp : Option JValue)
    (hval : validateRequest cfg req = .ok (vq, vb, vp)) :
    (validatedHandler cfg req).handlerInput = some ⟨vq, vb, vp, req.auth⟩ ∧
    Step.handlerInvocation ∈ (validatedHandler cfg req).trace := by
  unfold validatedHandler
  rw [hval]
  dsimp only
  cases ho : cfg.handler ⟨vq, vb, vp, req.auth⟩ with
  | throws e => simp
  | ok result =>
      cases hg : safeParse (applyStrict cfg.response) result with
      | error issues => simp [hg]
      | ok w => simp [hg]

/-- A validator-supplied context is exactly what the handler observes. -/
lemma auth_context_observed {Ctx : Type}
    (f : String → RawRequest Ctx → AuthValidationResult Ctx)
    (cfg : EndpointConfig Ctx) (req : RawRequest Ctx) (h t : String) (c : Ctx)
    (vq vb vp : Option JValue)
    (hauth : cfg.authenticated = true)
    (hh : req.authHeader = some h) (hsp : jsSplitSpace h = ["Bearer", t])
    (hv : (f t req).valid = true) (hc : (f t req).context = some c)
    (hval : validateRequest cfg req = .ok (vq, vb, vp)) :
    (runEndpoint (.validator f) cfg req).handlerInput =
      some ⟨vq, vb, vp, some c⟩ ∧
    Step.handlerInvocation ∈ (runEndpoint (.validator f) cfg req).trace := by
  have hA := auth_validator_valid f req h t hh hsp hv
  have hval2 : validateRequest cfg { req with auth := some c } =
    .ok (vq, vb, vp) := hval
  unfold runEndpoint
  rw [if_pos hauth, hA, hc]
  dsimp only
  have hres := validatedHandler_ok cfg { req with auth := some c } vq vb vp hval2
  exact ⟨hres.1, List.mem_cons_of_mem _ hres.2⟩

/-- C2: for an authenticated endpoint the auth resolver's outcomes are:
no (or empty, hence falsy) Authorization header → 401 with the missing
message; a non-empty header that is not exactly `Bearer` plus one
space-separated token → 401 with the format message; a string-configured
token with a non-equal extracted token → 403 "Invalid token"; a function
validator returning valid=false → 403 with the validator's error message
when present and non-empty, else the "Invalid token" fallback (JS `||`
falsiness); a validator returning valid=true → proceed
carrying the validator's context; and with a recognized token the
handler runs observing exactly the supplied context. -/
theorem C2_auth_resolver {Ctx : Type} :
    (∀ (tok : ApiTokenCfg Ctx) (req : RawRequest Ctx),
      (req.authHeader = none ∨ req.authHeader = some "") →
      authenticateToken tok req =
        .reject 401 "Unauthorized" "Missing authorization header") ∧
    (∀ (tok : ApiTokenCfg Ctx) (req : RawRequest Ctx) (h : String),
      req.authHeader = some h → h ≠ "" →
      (∀ t, jsSplitSpace h ≠ ["Bearer", t]) →
      authenticateToken tok req = .reject 401 "Unauthorized"
        "Invalid authorization header format. Expected: Bearer <token>") ∧
    (∀ (s : String) (req : RawRequest Ctx) (h t : String),
      req.authHeader = some h → jsSplitSpace h = ["Bearer", t] → t ≠ s →
      authenticateToken (.secret s) req =
        .reject 403 "Forbidden" "Invalid token") ∧
    (∀ (f : String → RawRequest Ctx → AuthValidationResult Ctx)
       (req : RawRequest Ctx) (h t : String),
      req.authHeader = some h → jsSplitSpace h = ["Bearer", t] →
      (f t req).valid = false →
      authenticateToken (.validator f) req =
        .reject 403 "Forbidden" (errorOrInvalid (f t req).error)) ∧
    (∀ (f : String → RawRequest Ctx → AuthValidationResult Ctx)
       (req : RawRequest Ctx) (h t : String),
      req.authHeader = some h → jsSplitSpace h = ["Bearer", t] →
      (f t req).valid = true →
      authenticateToken (.validator f) req = .allow (f t req).context) ∧
    (∀ (f : String → RawRequest Ctx → AuthValidationResult Ctx)
       (cfg : EndpointConfig Ctx) (req : RawRequest Ctx) (h t : String)
       (c : Ctx) (vq vb vp : Option JValue),
      cfg.authenticated = true → req.authHeader = some h →
      jsSplitSpace h = ["Bearer", t] → (f t req).valid = true →
      (f t req).context = some c → validateRequest cfg req = .ok (vq, vb, vp) →
      (runEndpoint (.validator f) cfg req).handlerInput =
        some ⟨vq, vb, vp, some c⟩ ∧
      Step.handlerInvocation ∈ (runEndpoint (.validator f) cfg req).trace) :=
  ⟨auth_missing, auth_format, auth_secret_mismatch, auth_validator_invalid,
   auth_validator_valid, auth_context_observed⟩

/-- C2 witness: each auth outcome exercised on a concrete request. -/
theorem C2_auth_resolver_witness :
    @authenticateToken Nat (.secret "s") reqPlain =
      .reject 401 "Unauthorized" "Missing authorization header" ∧
    @authenticateToken Nat (.secret "s") (reqAuth "Token abc") =
      .reject 401 "Unauthorized"
        "Invalid authorization header format. Expected: Bearer <token>" ∧
    @authenticateToken Nat (.secret "s") (reqAuth "Bearer wrong") =
      .reject 403 "Forbidden" "Invalid token" ∧
    authenticateToken (.validator exValidator) (reqAuth "Bearer bad") =
      .reject 403 "Forbidden"
        (errorOrInvalid (exValidator "bad" (reqAuth "Bearer bad")).error) ∧
    authenticateToken (.validator exValidatorEmptyErr) (reqAuth "Bearer bad") =
      .reject 403 "Forbidden" "Invalid token" ∧
    authenticateToken (.validator exValidator) (reqAuth "Bearer good") =
      .allow ((exValidator "good" (reqAuth "Bearer good")).context) ∧
    (runEndpoint (.validator exValidator) cfgAuth
        (reqAuth "Bearer good")).handlerInput =
      some ⟨none, none, none, some 7⟩ ∧
    Step.handlerInvocation ∈
      (runEndpoint (.validator exValidator) cfgAuth
        (reqAuth "Bearer good")).trace := by
  have h := @C2_auth_resolver Nat
  have h6 := h.2.2.2.2.2 exValidator cfgAuth (reqAuth "Bearer good")
    "Bearer good" "good" 7 none none none rfl rfl (by decide) rfl rfl rfl
  exact ⟨h.1 (.secret "s") reqPlain (Or.inl rfl),
    h.2.1 (.secret "s") (reqAuth "Token abc") "Token abc" rfl (by decide)
      (by intro t ht; injection ht with h1 h2; exact absurd h1 (by decide)),
    h.2.2.1 "s" (reqAuth "Bearer wrong") "Bearer wrong" "wrong" rfl (by decide)
      (by decide),
    h.2.2.2.1 exValidator (reqAuth "Bearer bad") "Bearer bad" "bad" rfl
      (by decide) rfl,
    h.2.2.2.1 exValidatorEmptyErr (reqAuth "Bearer bad") "Bearer bad" "bad"
      rfl (by decide) rfl,
    h.2.2.2.2.1 exValidator (reqAuth "Bearer good") "Bearer good" "good" rfl
      (by decide) rfl,
    h6.1, h6.2⟩

/-- C10: the header `"Bearer "` (trailing space, empty token) passes the
format check — it splits into exactly `["Bearer", ""]` — so the empty
token is compared against the configured secret (403 for a non-empty
secret) or handed to the validator function, instead of being rejected
as malformed with 401. -/
theorem C10_empty_token_passes_format {Ctx : Type} :
    jsSplitSpace "Bearer " = ["Bearer", ""] ∧
    (∀ (s : String) (req : RawRequest Ctx),
      req.authHeader = some "Bearer " → s ≠ "" →
      authenticateToken (.secret s) req =
        .reject 403 "Forbidden" "Invalid token") ∧
    (∀ (f : String → RawRequest Ctx → AuthValidationResult Ctx)
       (req : RawRequest Ctx), req.authHeader = some "Bearer " →
      authenticateToken (.validator f) req =
        (if (f "" req).valid then .allow (f "" req).context
         else .reject 403 "Forbidden" (errorOrInvalid (f "" req).error))) := by
  refine ⟨rfl, ?_, ?_⟩
  · intro s req hh hs
    exact auth_secret_mismatch s req "Bearer " "" hh rfl (fun e => hs e.symm)
  · intro f req hh
    cases hv : (f "" req).valid with
    | true => simpa using auth_validator_valid f req "Bearer " "" hh rfl hv
    | false => simpa using auth_validator_invalid f req "Bearer " "" hh rfl hv

/-- C10 witness: a concrete secret and two validators fed the empty
token, one of them answering with an empty error string (the reply
falls back to "Invalid token"). -/
theorem C10_empty_token_witness :
    @authenticateToken Nat (.secret "s") (reqAuth "Bearer ") =
      .reject 403 "Forbidden" "Invalid token" ∧
    authenticateToken (.validator exValidator) (reqAuth "Bearer ") =
      (if (exValidator "" (reqAuth "Bearer ")).valid then
        .allow (exValidator "" (reqAuth "Bearer ")).context
       else .reject 403 "Forbidden"
         (errorOrInvalid (exValidator "" (reqAuth "Bearer ")).error)) ∧
    authenticateToken (.validator exValidatorEmptyErr) (reqAuth "Bearer ") =
      .reject 403 "Forbidden" "Invalid token" := by
  have h := @C10_empty_token_passes_format Nat
  refine ⟨h.2.1 "s" (reqAuth "Bearer ") rfl (by decide),
    h.2.2 exValidator (reqAuth "Bearer ") rfl,
    (h.2.2 exValidatorEmptyErr (reqAuth "Bearer ") rfl).trans (by rfl)⟩

/-! ### Pipeline inversion lemmas (C9) -/

/-- Inverting the request-validation phase: success means every part
validated with the recorded value. -/
lemma validateRequest_ok_inv {Ctx : Type} (cfg : EndpointConfig Ctx)
    (req : RawRequest Ctx) (vq vb vp : Option JValue)
    (h : validateRequest cfg req = .ok (vq, vb, vp)) :
    validatePart "query" cfg.query req.query = .ok vq ∧
    validatePart "body" cfg.body req.body = .ok vb ∧
    validatePart "params" cfg.params req.params = .ok vp := by
  unfold validateRequest at h
  cases h1 : validatePart "query" cfg.query req.query with
  | error d => rw [h1] at h; simp [Bind.bind, Except.bind] at h
  | ok vq2 =>
      rw [h1] at h
      cases h2 : validatePart "body" cfg.body req.body with
      | error d => rw [h2] at h; simp [Bind.bind, Except.bind] at h
      | ok vb2 =>
          rw [h2] at h
          cases h3 : validatePart "params" cfg.params req.params with
          | error d => rw [h3] at h; simp [Bind.bind, Except.bind] at h
          | ok vp2 =>
              rw [h3] at h
              simp [Bind.bind, Except.bind] at h
              obtain ⟨e1, e2, e3⟩ := h
              subst e1; subst e2; subst e3
              exact ⟨rfl, rfl, rfl⟩

/-- If the handler was invoked, request validation succeeded and the
typed request is exactly the validated parts plus the auth context. -/
lemma validatedHandler_handlerInput_inv {Ctx : Type} (cfg : EndpointConfig Ctx)
    (req : RawRequest Ctx) (tr : TypedRequest Ctx)
    (h : (validatedHandler cfg req).handlerInput = some tr) :
    ∃ vq vb vp, validateRequest cfg req = .ok (vq, vb, vp) ∧
      tr = ⟨vq, vb, vp, req.auth⟩ := by
  unfold validatedHandler at h
  cases hv : validateRequest cfg req with
  | error d => rw [hv] at h; simp at h
  | ok triple =>
      obtain ⟨vq, vb, vp⟩ := triple
      rw [hv] at h
      dsimp only at h
      refine ⟨vq, vb, vp, rfl, ?_⟩
      cases ho : cfg.handler ⟨vq, vb, vp, req.auth⟩ with
      | throws e => rw [ho] at h; simp at h; exact h.symm
      | ok result =>
          rw [ho] at h
          dsimp only at h
          cases hg : safeParse (applyStrict cfg.response) result with
          | error issues => rw [hg] at h; simp at h; exact h.symm
          | ok w => rw [hg] at h; simp at h; exact h.symm

/-- Same inversion through the full route (auth preHandler included):
the handler's request is built from validated values over a request
whose raw parts are unchanged by the auth step. -/
lemma runEndpoint_handlerInput_inv {Ctx : Type} (tok : ApiTokenCfg Ctx)
    (cfg : EndpointConfig Ctx) (req : RawRequest Ctx) (tr : TypedRequest Ctx)
    (h : (runEndpoint tok cfg req).handlerInput = some tr) :
    ∃ req2 vq vb vp, req2.query = req.query ∧ req2.body = req.body ∧
      req2.params = req.params ∧
      validateRequest cfg req2 = .ok (vq, vb, vp) ∧
      tr = ⟨vq, vb, vp, req2.auth⟩ := by
  unfold runEndpoint at h
  by_cases ha : cfg.authenticated
  · rw [if_pos ha] at h
    cases hA : authenticateToken tok req with
    | reject st e m => rw [hA] at h; simp at h
    | allow ctx =>
        rw [hA] at h
        cases ctx with
        | some c =>
            dsimp only at h
            obtain ⟨vq, vb, vp, hv, htr⟩ :=
              validatedHandler_handlerInput_inv cfg { req with auth := some c }
                tr h
            exact ⟨{ req with auth := some c }, vq, vb, vp, rfl, rfl, rfl, hv,
              htr⟩
        | none =>
            dsimp only at h
            obtain ⟨vq, vb, vp, hv, htr⟩ :=
              validatedHandler_handlerInput_inv cfg { req with auth := req.auth }
                tr h
            exact ⟨{ req with auth := req.auth }, vq, vb, vp, rfl, rfl, rfl,
              hv, htr⟩
  · rw [if_neg ha] at h
    obtain ⟨vq, vb, vp, hv, htr⟩ :=
      validatedHandler_handlerInput_inv cfg req tr h
    exact ⟨req, vq, vb, vp, rfl, rfl, rfl, hv, htr⟩

/-- C9: for every endpoint and request, whenever the handler is invoked,
any part not declared by the contract is observed as undefined by the
handler — the typed request overwrites all three parts with the
validated values, so raw data in an undeclared part never reaches the
handler. -/
theorem C9_undeclared_parts_are_undefined {Ctx : Type} :
    ∀ (tok : ApiTokenCfg Ctx) (cfg : EndpointConfig Ctx) (req : RawRequest Ctx)
      (tr : TypedRequest Ctx),
      (runEndpoint tok cfg req).handlerInput = some tr →
      (cfg.query = none → tr.query = none) ∧
      (cfg.body = none → tr.body = none) ∧
      (cfg.params = none → tr.params = none) := by
  intro tok cfg req tr h
  obtain ⟨req2, vq, vb, vp, -, -, -, hv, htr⟩ :=
    runEndpoint_handlerInput_inv tok cfg req tr h
  obtain ⟨h1, h2, h3⟩ := validateRequest_ok_inv cfg req2 vq vb vp hv
  subst htr
  refine ⟨?_, ?_, ?_⟩
  · intro hq
    rw [hq] at h1
    have h1b : (Except.ok none :
      Except (List FieldError) (Option JValue)) = .ok vq := h1
    injection h1b with e
    exact e.symm
  · intro hb
    rw [hb] at h2
    have h2b : (Except.ok none :
      Except (List FieldError) (Option JValue)) = .ok vb := h2
    injection h2b with e
    exact e.symm
  · intro hp
    rw [hp] at h3
    have h3b : (Except.ok none :
      Except (List FieldError) (Option JValue)) = .ok vp := h3
    injection h3b with e
    exact e.symm

/-- C9 witness: an endpoint declaring no parts, a raw request carrying
data in every part — the handler still observes undefined for all
three. -/
theorem C9_undeclared_parts_witness :
    (@runEndpoint Nat (.secret "s") cfgPlain reqJunk).handlerInput =
      some ⟨none, none, none, none⟩ ∧
    ((⟨none, none, none, none⟩ : TypedRequest Nat).query = none ∧
     (⟨none, none, none, none⟩ : TypedRequest Nat).body = none ∧
     (⟨none, none, none, none⟩ : TypedRequest Nat).params = none) := by
  have h := @C9_undeclared_parts_are_undefined Nat (.secret "s")
    cfgPlain reqJunk ⟨none, none, none, none⟩ rfl
  exact ⟨rfl, h.1 rfl, h.2.1 rfl, h.2.2 rfl⟩

/-! ### Idempotence of validation (C8) -/

/-- Re-parsing a parsed field value returns it unchanged. -/
lemma parseFieldValue_idem : ∀ (f : FieldSchema) (x y : JValue),
    parseFieldValue f x = some y → parseFieldValue f y = some y := by
  intro f
  induction f with
  | fstr =>
      intro x y h
      cases x <;> simp [parseFieldValue] at h <;> (subst h; rfl)
  | fnum =>
      intro x y h
      cases x <;> simp [parseFieldValue] at h <;> (subst h; rfl)
  | fbool =>
      intro x y h
      cases x <;> simp [parseFieldValue] at h <;> (subst h; rfl)
  | fcoerceNum =>
      intro x y h
      cases x with
      | str s =>
          simp [parseFieldValue] at h
          obtain ⟨k, hk, hy⟩ := h
          subst hy; rfl
      | num n => simp [parseFieldValue] at h; subst h; rfl
      | bool b => simp [parseFieldValue] at h; subst h; rfl
      | obj l => simp [parseFieldValue] at h
  | fdefault base d ih =>
      intro x y h
      simp only [parseFieldValue] at h ⊢
      exact ih x y h
  | foptional base ih =>
      intro x y h
      simp only [parseFieldValue] at h ⊢
      exact ih x y h

/-- A defaulted absent field re-parses to itself. -/
lemma absentParse_some : ∀ (f : FieldSchema) (w : JValue),
    absentParse f = .ok (some w) → parseFieldValue f w = some w := by
  intro f w h
  cases f with
  | fdefault base d =>
      simp only [absentParse] at h
      cases hp : parseFieldValue base d with
      | none => rw [hp] at h; simp at h
      | some w2 =>
          rw [hp] at h
          simp at h
          subst h
          simp only [parseFieldValue]
          exact parseFieldValue_idem base d w2 hp
  | foptional base => simp [absentParse] at h
  | fstr => simp [absentParse] at h
  | fnum => simp [absentParse] at h
  | fbool => simp [absentParse] at h
  | fcoerceNum => simp [absentParse] at h

/-- Lookup misses keys absent from the list. -/
lemma lookupField_not_mem : ∀ (name : String) (l : List (String × JValue)),
    name ∉ l.map Prod.fst → lookupField name l = none := by
  intro name l
  induction l with
  | nil => intro _; rfl
  | cons hd rest ih =>
      intro h
      obtain ⟨k, v⟩ := hd
      have hk : k ≠ name := fun e => h (by simp [e])
      have hr : name ∉ rest.map Prod.fst :=
        fun hm => h (List.mem_cons_of_mem _ hm)
      simp [lookupField, hk, ih hr]

/-- Every output field of `parseFields` is a declared field. -/
lemma parseFields_keys_sub : ∀ (fields : List (String × FieldSchema))
    (input : List (String × JValue)) (k : String),
    k ∈ (parseFields fields input).2.map Prod.fst → k ∈ fields.map Prod.fst := by
  intro fields
  induction fields with
  | nil => intro input k hk; simp [parseFields] at hk
  | cons hd rest ih =>
      intro input k hk
      obtain ⟨name, fs⟩ := hd
      unfold parseFields at hk
      cases hl : lookupField name input with
      | none =>
          rw [hl] at hk
          dsimp only at hk
          cases ha : absentParse fs with
          | error u =>
              rw [ha] at hk
              dsimp only at hk
              exact List.mem_cons_of_mem _ (ih input k hk)
          | ok o =>
              cases o with
              | none =>
                  rw [ha] at hk
                  dsimp only at hk
                  exact List.mem_cons_of_mem _ (ih input k hk)
              | some w =>
                  rw [ha] at hk
                  dsimp only at hk
                  rw [List.map_cons, List.mem_cons] at hk
                  rcases hk with hk | hk
                  · simp [hk]
                  · exact List.mem_cons_of_mem _ (ih input k hk)
      | some v =>
          rw [hl] at hk
          dsimp only at hk
          cases hp : parseFieldValue fs v with
          | none =>
              rw [hp] at hk
              dsimp only at hk
              exact List.mem_cons_of_mem _ (ih input k hk)
          | some w =>
              rw [hp] at hk
              dsimp only at hk
              rw [List.map_cons, List.mem_cons] at hk
              rcases hk with hk | hk
              · simp [hk]
              · exact List.mem_cons_of_mem _ (ih input k hk)

/-- A binding for an undeclared key does not affect `parseFields`. -/
lemma parseFields_irrel : ∀ (fields : List (String × FieldSchema))
    (name : String) (w : JValue) (input : List (String × JValue)),
    name ∉ fields.map Prod.fst →
    parseFields fields ((name, w) :: input) = parseFields fields input := by
  intro fields
  induction fields with
  | nil => intro name w input _; rfl
  | cons hd rest ih =>
      intro name w input hni
      obtain ⟨n, fs⟩ := hd
      have hne : n ≠ name := fun e => hni (by simp [e])
      have hni2 : name ∉ rest.map Prod.fst :=
        fun hm => hni (List.mem_cons_of_mem _ hm)
      unfold parseFields
      rw [ih name w input hni2]
      have hne2 : name ≠ n := fun e => hne e.symm
      have hlk : lookupField n ((name, w) :: input) = lookupField n input := by
        simp [lookupField, hne2]
      rw [hlk]

/-- Re-parsing the successful output of `parseFields` succeeds and is
the identity (the declared field names being distinct). -/
lemma parseFields_idem : ∀ (fields : List (String × FieldSchema))
    (input out : List (String × JValue)),
    (fields.map Prod.fst).Nodup →
    parseFields fields input = ([], out) →
    parseFields fields out = ([], out) := by
  intro fields
  induction fields with
  | nil =>
      intro input out _ h
      unfold parseFields at h
      simp only [Prod.mk.injEq] at h
      rw [← h.2]
      rfl
  | cons hd rest ih =>
      intro input out hnd h
      obtain ⟨name, fs⟩ := hd
      simp only [List.map_cons, List.nodup_cons] at hnd
      obtain ⟨hnn, hndr⟩ := hnd
      unfold parseFields at h
      cases hr : parseFields rest input with
      | mk ris rout =>
          rw [hr] at h
          dsimp only at h
          cases hl : lookupField name input with
          | some v =>
              rw [hl] at h
              dsimp only at h
              cases hp : parseFieldValue fs v with
              | none => rw [hp] at h; simp at h
              | some w =>
                  rw [hp] at h
                  simp only [Prod.mk.injEq] at h
                  obtain ⟨h1, h2⟩ := h
                  subst h1
                  rw [← h2]
                  have hrout : parseFields rest rout = ([], rout) :=
                    ih input rout hndr hr
                  unfold parseFields
                  rw [parseFields_irrel rest name w rout hnn, hrout]
                  dsimp only
                  rw [show lookupField name ((name, w) :: rout) = some w by
                    simp [lookupField]]
                  dsimp only
                  rw [parseFieldValue_idem fs v w hp]
          | none =>
              rw [hl] at h
              dsimp only at h
              cases ha : absentParse fs with
              | error u => rw [ha] at h; simp at h
              | ok o =>
                  cases o with
                  | none =>
                      rw [ha] at h
                      dsimp only at h
                      simp only [Prod.mk.injEq] at h
                      obtain ⟨h1, h2⟩ := h
                      subst h1
                      rw [← h2]
                      have hrout : parseFields rest rout = ([], rout) :=
                        ih input rout hndr hr
                      have hnm : name ∉ rout.map Prod.fst := by
                        intro hm
                        exact hnn
                          (parseFields_keys_sub rest input name
                            (by rw [hr]; exact hm))
                      unfold parseFields
                      rw [hrout]
                      dsimp only
                      rw [lookupField_not_mem name rout hnm]
                      dsimp only
                      rw [ha]
                  | some w =>
                      rw [ha] at h
                      simp only [Prod.mk.injEq] at h
                      obtain ⟨h1, h2⟩ := h
                      subst h1
                      rw [← h2]
                      have hrout : parseFields rest rout = ([], rout) :=
                        ih input rout hndr hr
                      unfold parseFields
                      rw [parseFields_irrel rest name w rout hnn, hrout]
                      dsimp only
                      rw [show lookupField name ((name, w) :: rout) = some w by
                        simp [lookupField]]
                      dsimp only
                      rw [absentParse_some fs w ha]

/-- A value whose keys are all declared has no unknown keys. -/
lemma unknownKeys_eq_nil (declared : List String)
    (l : List (String × JValue))
    (h : ∀ k ∈ l.map Prod.fst, k ∈ declared) : unknownKeys declared l = [] := by
  unfold unknownKeys
  rw [List.filter_eq_nil_iff]
  intro k hk
  simp [h k hk]

/-- Zod parsing (for the modelled subset) is idempotent: re-parsing a
successfully parsed value succeeds and returns it unchanged. -/
lemma safeParse_idem : ∀ (s : ZodSchema) (v w : JValue),
    schemaFieldsNodup s → safeParse s v = .ok w → safeParse s w = .ok w := by
  intro s v w hnd h
  cases s with
  | zany => exact rfl
  | zobject fields st =>
      cases v with
      | str s2 => simp [safeParse] at h
      | num n => simp [safeParse] at h
      | bool b => simp [safeParse] at h
      | obj input =>
          unfold safeParse at h
          dsimp only at h
          cases hr : parseFields fields input with
          | mk ris rout =>
              rw [hr] at h
              dsimp only at h
              split at h
              case isTrue hcond => simp at h
              case isFalse hcond =>
                  split at h
                  case isFalse => simp at h
                  case isTrue hris =>
                  have hw : JValue.obj rout = w := by
                    simpa using h
                  have h1 : ris = [] := by simpa using hris
                  subst h1
                  rw [← hw]
                  have hr2 : parseFields fields rout = ([], rout) :=
                    parseFields_idem fields input rout hnd hr
                  have hsub : ∀ k ∈ rout.map Prod.fst,
                      k ∈ fields.map Prod.fst := by
                    intro k hk
                    exact parseFields_keys_sub fields input k
                      (by rw [hr]; exact hk)
                  unfold safeParse
                  dsimp only
                  rw [hr2]
                  dsimp only
                  rw [unknownKeys_eq_nil (fields.map Prod.fst) rout hsub]
                  simp

/-- Strictening a schema keeps its field names distinct. -/
lemma schemaFieldsNodup_applyStrict (s : ZodSchema)
    (h : schemaFieldsNodup s) : schemaFieldsNodup (applyStrict s) := by
  cases s with
  | zobject fields st => exact h
  | zany => exact h

/-- C8: for well-formed input matching the declared contract, validation
succeeds and the handler observes exactly the coerced/defaulted result
of validation (not the raw input); validation is idempotent — re-parsing
an already-validated value succeeds and returns the same value, both at
the schema level and through a request part. -/
theorem C8_validation_idempotent {Ctx : Type} :
    (∀ (cfg : EndpointConfig Ctx) (req : RawRequest Ctx)
       (vq vb vp : Option JValue),
      validateRequest cfg req = .ok (vq, vb, vp) →
      (validatedHandler cfg req).handlerInput = some ⟨vq, vb, vp, req.auth⟩) ∧
    (∀ (s : ZodSchema) (v w : JValue), schemaFieldsNodup s →
      safeParse (applyStrict s) v = .ok w →
      safeParse (applyStrict s) w = .ok w) ∧
    (∀ (origin : String) (s : ZodSchema) (v w : JValue), schemaFieldsNodup s →
      validatePart origin (some s) v = .ok (some w) →
      validatePart origin (some s) w = .ok (some w)) := by
  refine ⟨?_, ?_, ?_⟩
  · intro cfg req vq vb vp hval
    exact (validatedHandler_ok cfg req vq vb vp hval).1
  · intro s v w hnd h
    exact safeParse_idem (applyStrict s) v w (schemaFieldsNodup_applyStrict s hnd) h
  · intro origin s v w hnd h
    unfold validatePart at h ⊢
    dsimp only at h ⊢
    cases hsp : safeParse (applyStrict s) v with
    | error issues => rw [hsp] at h; simp at h
    | ok w2 =>
        rw [hsp] at h
        simp at h
        subst h
        rw [safeParse_idem (applyStrict s) v w2
          (schemaFieldsNodup_applyStrict s hnd) hsp]

/-- C8 witness: a request with no declared parts reaches the handler
with the validated values; a coercing/defaulting schema parses
`{a:"5"}` to `{a:5, b:"d"}`, and re-parsing that output is the
identity. -/
theorem C8_validation_idempotent_witness :
    (validatedHandler cfgPlain reqPlain).handlerInput =
      some ⟨none, none, none, none⟩ ∧
    safeParse (applyStrict exIdemSchema)
      (.obj [("a", .num 5), ("b", .str "d")]) =
      .ok (.obj [("a", .num 5), ("b", .str "d")]) ∧
    validatePart "query" (some exIdemSchema)
      (.obj [("a", .num 5), ("b", .str "d")]) =
      .ok (some (.obj [("a", .num 5), ("b", .str "d")])) := by
  have h := @C8_validation_idempotent Nat
  exact ⟨h.1 cfgPlain reqPlain none none none rfl,
    h.2.1 exIdemSchema (.obj [("a", .str "5")]) _ (by decide) (by rfl),
    h.2.2 "query" exIdemSchema (.obj [("a", .str "5")]) _ (by decide) (by rfl)⟩

/-! ### Pipeline outcome lemmas (C1, C3, C5, C6) -/

/-- A failed request validation yields the 400 reply with exactly the
thrown details, no handler invocation, no logs. -/
lemma validatedHandler_validation_failure {Ctx : Type} (cfg : EndpointConfig Ctx)
    (req : RawRequest Ctx) (d : List FieldError)
    (h : validateRequest cfg req = .error d) :
    validatedHandler cfg req =
      { reply := .errorReply 400 "Bad Request" "Validation failed" (some d),
        trace := [.requestValidation], handlerInput := none, logs := [] } := by
  unfold validatedHandler
  rw [h]

/-- A handler exception is mapped by the catch block. -/
lemma validatedHandler_throws {Ctx : Type} (cfg : EndpointConfig Ctx)
    (req : RawRequest Ctx) (vq vb vp : Option JValue) (e : Exc)
    (hval : validateRequest cfg req = .ok (vq, vb, vp))
    (hh : cfg.handler ⟨vq, vb, vp, req.auth⟩ = .throws e) :
    validatedHandler cfg req =
      { reply := replyForException e,
        trace := [.requestValidation, .handlerInvocation],
        handlerInput := some ⟨vq, vb, vp, req.auth⟩, logs := [] } := by
  unfold validatedHandler
  rw [hval]
  dsimp only
  rw [hh]

/-- A response-schema mismatch is logged (url, method, issues, raw
response) and mapped to the 500 reply; nothing is transmitted. -/
lemma validatedHandler_guard_failure {Ctx : Type} (cfg : EndpointConfig Ctx)
    (req : RawRequest Ctx) (vq vb vp : Option JValue) (result : JValue)
    (issues : List ZodIssue)
    (hval : validateRequest cfg req = .ok (vq, vb, vp))
    (hh : cfg.handler ⟨vq, vb, vp, req.auth⟩ = .ok result)
    (hg : safeParse (applyStrict cfg.response) result = .error issues) :
    validatedHandler cfg req =
      { reply := .errorReply 500 "Internal Server Error"
          "Response validation failed - server returned invalid data"
          (some (issues.map fun i => ⟨joinDotOrRoot i.path, i.message⟩)),
        trace := [.requestValidation, .handlerInvocation, .responseGuard],
        handlerInput := some ⟨vq, vb, vp, req.auth⟩,
        logs := [.respValidationFailure req.url req.method issues result] } := by
  unfold validatedHandler
  rw [hval]
  dsimp only
  rw [hh]
  dsimp only
  rw [hg]

/-- A guarded success transmits the handler result. -/
lemma validatedHandler_success {Ctx : Type} (cfg : EndpointConfig Ctx)
    (req : RawRequest Ctx) (vq vb vp : Option JValue) (result w : JValue)
    (hval : validateRequest cfg req = .ok (vq, vb, vp))
    (hh : cfg.handler ⟨vq, vb, vp, req.auth⟩ = .ok result)
    (hg : safeParse (applyStrict cfg.response) result = .ok w) :
    validatedHandler cfg req =
      { reply := .success result,
        trace := [.requestValidation, .handlerInvocation, .responseGuard,
          .transmission],
        handlerInput := some ⟨vq, vb, vp, req.auth⟩, logs := [] } := by
  unfold validatedHandler
  rw [hval]
  dsimp only
  rw [hh]
  dsimp only
  rw [hg]

/-- The handler-level trace is always a prefix of the wired step
order. -/
lemma validatedHandler_trace {Ctx : Type} (cfg : EndpointConfig Ctx)
    (req : RawRequest Ctx) :
    (validatedHandler cfg req).trace <+: [Step.requestValidation,
      Step.handlerInvocation, Step.responseGuard, Step.transmission] := by
  cases hval : validateRequest cfg req with
  | error d =>
      rw [validatedHandler_validation_failure cfg req d hval]
      exact ⟨[Step.handlerInvocation, Step.responseGuard, Step.transmission],
        rfl⟩
  | ok triple =>
      obtain ⟨vq, vb, vp⟩ := triple
      cases hh : cfg.handler ⟨vq, vb, vp, req.auth⟩ with
      | throws e =>
          rw [validatedHandler_throws cfg req vq vb vp e hval hh]
          exact ⟨[Step.responseGuard, Step.transmission], rfl⟩
      | ok result =>
          cases hg : safeParse (applyStrict cfg.response) result with
          | error issues =>
              rw [validatedHandler_guard_failure cfg req vq vb vp result issues
                hval hh hg]
              exact ⟨[Step.transmission], rfl⟩
          | ok w =>
              rw [validatedHandler_success cfg req vq vb vp result w hval hh hg]

/-- Request validation ignores the auth context on the request. -/
lemma validateRequest_auth_irrel {Ctx : Type} (cfg : EndpointConfig Ctx)
    (req : RawRequest Ctx) (a : Option Ctx) :
    validateRequest cfg { req with auth := a } = validateRequest cfg req := rfl

/-- The full route trace is always a prefix of the fixed wired order. -/
lemma runEndpoint_trace {Ctx : Type} (tok : ApiTokenCfg Ctx)
    (cfg : EndpointConfig Ctx) (req : RawRequest Ctx) :
    (runEndpoint tok cfg req).trace <+: fixedOrder cfg := by
  unfold runEndpoint fixedOrder
  by_cases ha : cfg.authenticated
  · rw [if_pos ha, if_pos ha]
    cases hA : authenticateToken tok req with
    | reject st e m =>
        exact ⟨[Step.requestValidation, Step.handlerInvocation,
          Step.responseGuard, Step.transmission], rfl⟩
    | allow ctx =>
        cases ctx with
        | some c =>
            dsimp only
            obtain ⟨t, ht⟩ := validatedHandler_trace cfg { req with auth := some c }
            exact ⟨t, by rw [List.cons_append, ht]; rfl⟩
        | none =>
            dsimp only
            obtain ⟨t, ht⟩ :=
              validatedHandler_trace cfg { req with auth := req.auth }
            exact ⟨t, by rw [List.cons_append, ht]; rfl⟩
  · rw [if_neg ha, if_neg ha]
    obtain ⟨t, ht⟩ := validatedHandler_trace cfg req
    exact ⟨t, by rw [List.nil_append, ht]⟩

/-- A failing query part makes the whole validation throw its details. -/
lemma validateRequest_query_error {Ctx : Type} (cfg : EndpointConfig Ctx)
    (req : RawRequest Ctx) (d : List FieldError)
    (h : validatePart "query" cfg.query req.query = .error d) :
    validateRequest cfg req = .error d := by
  unfold validateRequest
  rw [h]
  rfl

/-- With query passing, a failing body part throws its details. -/
lemma validateRequest_body_error {Ctx : Type} (cfg : EndpointConfig Ctx)
    (req : RawRequest Ctx) (vq : Option JValue) (d : List FieldError)
    (hq : validatePart "query" cfg.query req.query = .ok vq)
    (h : validatePart "body" cfg.body req.body = .error d) :
    validateRequest cfg req = .error d := by
  unfold validateRequest
  rw [hq]
  show (validatePart "body" cfg.body req.body).bind _ = _
  rw [h]
  rfl

/-- With query and body passing, a failing params part throws its
details. -/
lemma validateRequest_params_error {Ctx : Type} (cfg : EndpointConfig Ctx)
    (req : RawRequest Ctx) (vq vb : Option JValue) (d : List FieldError)
    (hq : validatePart "query" cfg.query req.query = .ok vq)
    (hb : validatePart "body" cfg.body req.body = .ok vb)
    (h : validatePart "params" cfg.params req.params = .error d) :
    validateRequest cfg req = .error d := by
  unfold validateRequest
  rw [hq]
  show (validatePart "body" cfg.body req.body).bind _ = _
  rw [hb]
  show (validatePart "params" cfg.params req.params).bind _ = _
  rw [h]
  rfl

/-- C1 (counterexample): with both the query and the body invalid, the
reply's details carry only the query part's errors — the body
validator's error (`body.b` missing) is absent, so the failure is not
the union of all failing parts. -/
theorem C1_counterexample :
    validatePart "body" cfgQB.body reqQbadBbad.body =
      .error [⟨"body.b", "Required"⟩] ∧
    (validatedHandler cfgQB reqQbadBbad).reply =
      .errorReply 400 "Bad Request" "Validation failed"
        (some [⟨"query.q", "Invalid input"⟩]) ∧
    (⟨"body.b", "Required"⟩ : FieldError) ∉
      [(⟨"query.q", "Invalid input"⟩ : FieldError)] :=
  ⟨by rfl, by rfl, by decide⟩

/-- C1 (amended): the validators run in the fixed order query, body,
params and stop at the first failing part: the 400 reply carries exactly
that part's field-error list; later declared validators are not
consulted. -/
theorem C1_first_failing_part_only {Ctx : Type} :
    (∀ (cfg : EndpointConfig Ctx) (req : RawRequest Ctx) (d : List FieldError),
      validatePart "query" cfg.query req.query = .error d →
      (validatedHandler cfg req).reply =
        .errorReply 400 "Bad Request" "Validation failed" (some d)) ∧
    (∀ (cfg : EndpointConfig Ctx) (req : RawRequest Ctx) (vq : Option JValue)
       (d : List FieldError),
      validatePart "query" cfg.query req.query = .ok vq →
      validatePart "body" cfg.body req.body = .error d →
      (validatedHandler cfg req).reply =
        .errorReply 400 "Bad Request" "Validation failed" (some d)) ∧
    (∀ (cfg : EndpointConfig Ctx) (req : RawRequest Ctx)
       (vq vb : Option JValue) (d : List FieldError),
      validatePart "query" cfg.query req.query = .ok vq →
      validatePart "body" cfg.body req.body = .ok vb →
      validatePart "params" cfg.params req.params = .error d →
      (validatedHandler cfg req).reply =
        .errorReply 400 "Bad Request" "Validation failed" (some d)) := by
  refine ⟨?_, ?_, ?_⟩
  · intro cfg req d h
    rw [validatedHandler_validation_failure cfg req d
      (validateRequest_query_error cfg req d h)]
  · intro cfg req vq d hq h
    rw [validatedHandler_validation_failure cfg req d
      (validateRequest_body_error cfg req vq d hq h)]
  · intro cfg req vq vb d hq hb h
    rw [validatedHandler_validation_failure cfg req d
      (validateRequest_params_error cfg req vq vb d hq hb h)]

/-- C1 amended witness: each part as the first failing part. -/
theorem C1_first_failing_part_witness :
    (validatedHandler cfgQB reqQbadBbad).reply =
      .errorReply 400 "Bad Request" "Validation failed"
        (some [⟨"query.q", "Invalid input"⟩]) ∧
    (validatedHandler cfgQB reqQokBbad).reply =
      .errorReply 400 "Bad Request" "Validation failed"
        (some [⟨"body.b", "Required"⟩]) ∧
    (validatedHandler cfgP reqPlain).reply =
      .errorReply 400 "Bad Request" "Validation failed"
        (some [⟨"params.p", "Required"⟩]) := by
  have h := @C1_first_failing_part_only Nat
  exact ⟨h.1 cfgQB reqQbadBbad _ (by rfl),
    h.2.1 cfgQB reqQokBbad (some (.obj [("q", .num 1)])) _ (by rfl) (by rfl),
    h.2.2 cfgP reqPlain none none _ (by rfl) (by rfl) (by rfl)⟩

/-- C3: a handler output failing the response schema yields the 500
`ResponseValidationError` reply (a kind distinct from the 400 request
validation failure), the non-conforming payload is never transmitted,
and the mismatch is logged with the request url, method and the raw
response value. -/
theorem C3_response_guard {Ctx : Type} :
    ∀ (cfg : EndpointConfig Ctx) (req : RawRequest Ctx)
      (vq vb vp : Option JValue) (result : JValue) (issues : List ZodIssue),
      validateRequest cfg req = .ok (vq, vb, vp) →
      cfg.handler ⟨vq, vb, vp, req.auth⟩ = .ok result →
      safeParse (applyStrict cfg.response) result = .error issues →
      (validatedHandler cfg req).reply =
        .errorReply 500 "Internal Server Error"
          "Response validation failed - server returned invalid data"
          (some (issues.map fun i => ⟨joinDotOrRoot i.path, i.message⟩)) ∧
      (∀ w, (validatedHandler cfg req).reply ≠ .success w) ∧
      Step.transmission ∉ (validatedHandler cfg req).trace ∧
      (validatedHandler cfg req).logs =
        [.respValidationFailure req.url req.method issues result] := by
  intro cfg req vq vb vp result issues hval hh hg
  rw [validatedHandler_guard_failure cfg req vq vb vp result issues hval hh hg]
  refine ⟨rfl, ?_, by dsimp only; decide, rfl⟩
  intro w hw
  exact Reply.noConfusion hw

/-- C3 witness: a handler returning `{ok: 1}` against `{ok: string}`. -/
theorem C3_response_guard_witness :
    (validatedHandler cfgBadResp reqPlain).reply =
      .errorReply 500 "Internal Server Error"
        "Response validation failed - server returned invalid data"
        (some [⟨"ok", "Invalid input"⟩]) ∧
    (∀ w, (validatedHandler cfgBadResp reqPlain).reply ≠ .success w) ∧
    Step.transmission ∉ (validatedHandler cfgBadResp reqPlain).trace ∧
    (validatedHandler cfgBadResp reqPlain).logs =
      [.respValidationFailure "/t" "GET" [⟨["ok"], "Invalid input"⟩]
        (.obj [("ok", .num 1)])] := by
  have h := @C3_response_guard Nat cfgBadResp reqPlain none none none
    (.obj [("ok", .num 1)]) [⟨["ok"], "Invalid input"⟩] (by rfl) (by rfl)
    (by rfl)
  exact h

/-- C5: the pipeline steps run in the fixed order (auth if required,
request validation, handler, response guard, transmission) — every
trace is a prefix of that order; an auth rejection replies with its
error and stops before the handler; a request-validation failure
replies 400 and the handler is never invoked; a response-guard failure
stops transmission. -/
theorem C5_pipeline_order {Ctx : Type} :
    (∀ (tok : ApiTokenCfg Ctx) (cfg : EndpointConfig Ctx)
       (req : RawRequest Ctx),
      (runEndpoint tok cfg req).trace <+: fixedOrder cfg) ∧
    (∀ (tok : ApiTokenCfg Ctx) (cfg : EndpointConfig Ctx)
       (req : RawRequest Ctx) (st : Nat) (e m : String),
      cfg.authenticated = true → authenticateToken tok req = .reject st e m →
      runEndpoint tok cfg req =
        { reply := .errorReply st e m none, trace := [.authCheck],
          handlerInput := none, logs := [] }) ∧
    (∀ (cfg : EndpointConfig Ctx) (req : RawRequest Ctx)
       (d : List FieldError),
      validateRequest cfg req = .error d →
      validatedHandler cfg req =
        { reply := .errorReply 400 "Bad Request" "Validation failed" (some d),
          trace := [.requestValidation], handlerInput := none, logs := [] }) ∧
    (∀ (tok : ApiTokenCfg Ctx) (cfg : EndpointConfig Ctx)
       (req : RawRequest Ctx) (d : List FieldError),
      validateRequest cfg req = .error d →
      Step.handlerInvocation ∉ (runEndpoint tok cfg req).trace ∧
      (runEndpoint tok cfg req).handlerInput = none) ∧
    (∀ (cfg : EndpointConfig Ctx) (req : RawRequest Ctx)
       (vq vb vp : Option JValue) (result : JValue) (issues : List ZodIssue),
      validateRequest cfg req = .ok (vq, vb, vp) →
      cfg.handler ⟨vq, vb, vp, req.auth⟩ = .ok result →
      safeParse (applyStrict cfg.response) result = .error issues →
      Step.transmission ∉ (validatedHandler cfg req).trace) := by
  refine ⟨runEndpoint_trace, ?_, validatedHandler_validation_failure, ?_, ?_⟩
  · intro tok cfg req st e m ha hA
    unfold runEndpoint
    rw [if_pos ha, hA]
  · intro tok cfg req d hval
    unfold runEndpoint
    by_cases ha : cfg.authenticated
    · rw [if_pos ha]
      cases hA : authenticateToken tok req with
      | reject st e m => exact ⟨by dsimp only; decide, rfl⟩
      | allow ctx =>
          cases ctx with
          | some c =>
              dsimp only
              rw [validatedHandler_validation_failure cfg { req with auth := some c }
                d ((validateRequest_auth_irrel cfg req (some c)).trans hval)]
              exact ⟨by dsimp only; decide, rfl⟩
          | none =>
              dsimp only
              rw [validatedHandler_validation_failure cfg
                { req with auth := req.auth } d
                ((validateRequest_auth_irrel cfg req req.auth).trans hval)]
              exact ⟨by dsimp only; decide, rfl⟩
    · rw [if_neg ha]
      rw [validatedHandler_validation_failure cfg req d hval]
      exact ⟨by dsimp only; decide, rfl⟩
  · intro cfg req vq vb vp result issues hval hh hg
    rw [validatedHandler_guard_failure cfg req vq vb vp result issues hval hh hg]
    dsimp only
    decide

/-- C5 witness: concrete instances of each pipeline fact. -/
theorem C5_pipeline_order_witness :
    (@runEndpoint Nat (.secret "s") cfgPlain reqPlain).trace <+:
      fixedOrder cfgPlain ∧
    @runEndpoint Nat (.secret "s") cfgAuth reqPlain =
      { reply := .errorReply 401 "Unauthorized" "Missing authorization header"
          none,
        trace := [.authCheck], handlerInput := none, logs := [] } ∧
    validatedHandler cfgQB reqQbadBbad =
      { reply := .errorReply 400 "Bad Request" "Validation failed"
          (some [⟨"query.q", "Invalid input"⟩]),
        trace := [.requestValidation], handlerInput := none, logs := [] } ∧
    (Step.handlerInvocation ∉
      (@runEndpoint Nat (.secret "s") cfgQB reqQbadBbad).trace ∧
     (@runEndpoint Nat (.secret "s") cfgQB reqQbadBbad).handlerInput =
      none) ∧
    Step.transmission ∉ (validatedHandler cfgBadResp reqPlain).trace := by
  have h := @C5_pipeline_order Nat
  exact ⟨h.1 (.secret "s") cfgPlain reqPlain,
    h.2.1 (.secret "s") cfgAuth reqPlain 401 "Unauthorized"
      "Missing authorization header" rfl (by rfl),
    h.2.2.1 cfgQB reqQbadBbad _ (by rfl),
    h.2.2.2.1 (.secret "s") cfgQB reqQbadBbad _ (by rfl),
    h.2.2.2.2 cfgBadResp reqPlain none none none (.obj [("ok", .num 1)])
      [⟨["ok"], "Invalid input"⟩] (by rfl) (by rfl) (by rfl)⟩

/-- C6: handler exceptions are mapped locally — `NotFoundError` to a 404
with the error's message, `ValidationError` to a 400 with its details,
`ResponseValidationError` to a 500 — and any other exception is not
caught but re-thrown to the framework's generic error handler; the
handler is invoked at most once per request (no retry). -/
theorem C6_exception_mapping {Ctx : Type} :
    (∀ (cfg : EndpointConfig Ctx) (req : RawRequest Ctx)
       (vq vb vp : Option JValue) (msg : String),
      validateRequest cfg req = .ok (vq, vb, vp) →
      cfg.handler ⟨vq, vb, vp, req.auth⟩ = .throws (.notFound msg) →
      (validatedHandler cfg req).reply =
        .errorReply 404 "Not Found" msg none) ∧
    (∀ (cfg : EndpointConfig Ctx) (req : RawRequest Ctx)
       (vq vb vp : Option JValue) (d : List FieldError),
      validateRequest cfg req = .ok (vq, vb, vp) →
      cfg.handler ⟨vq, vb, vp, req.auth⟩ = .throws (.validationErr d) →
      (validatedHandler cfg req).reply =
        .errorReply 400 "Bad Request" "Validation failed" (some d)) ∧
    (∀ (cfg : EndpointConfig Ctx) (req : RawRequest Ctx)
       (vq vb vp : Option JValue) (d : List FieldError),
      validateRequest cfg req = .ok (vq, vb, vp) →
      cfg.handler ⟨vq, vb, vp, req.auth⟩ =
        .throws (.responseValidationErr d) →
      (validatedHandler cfg req).reply =
        .errorReply 500 "Internal Server Error"
          "Response validation failed - server returned invalid data"
          (some d)) ∧
    (∀ (cfg : EndpointConfig Ctx) (req : RawRequest Ctx)
       (vq vb vp : Option JValue) (name : String),
      validateRequest cfg req = .ok (vq, vb, vp) →
      cfg.handler ⟨vq, vb, vp, req.auth⟩ = .throws (.other name) →
      (validatedHandler cfg req).reply = .rethrown name) ∧
    (∀ (tok : ApiTokenCfg Ctx) (cfg : EndpointConfig Ctx)
       (req : RawRequest Ctx),
      (runEndpoint tok cfg req).trace.count Step.handlerInvocation ≤ 1) := by
  refine ⟨?_, ?_, ?_, ?_, ?_⟩
  · intro cfg req vq vb vp msg hval hh
    rw [validatedHandler_throws cfg req vq vb vp _ hval hh]
    rfl
  · intro cfg req vq vb vp d hval hh
    rw [validatedHandler_throws cfg req vq vb vp _ hval hh]
    rfl
  · intro cfg req vq vb vp d hval hh
    rw [validatedHandler_throws cfg req vq vb vp _ hval hh]
    rfl
  · intro cfg req vq vb vp name hval hh
    rw [validatedHandler_throws cfg req vq vb vp _ hval hh]
    rfl
  · intro tok cfg req
    have hcount : (fixedOrder cfg).count Step.handlerInvocation = 1 := by
      unfold fixedOrder
      by_cases ha : cfg.authenticated
      · rw [if_pos ha]; rfl
      · rw [if_neg ha]; rfl
    calc (runEndpoint tok cfg req).trace.count Step.handlerInvocation
        ≤ (fixedOrder cfg).count Step.handlerInvocation :=
          (runEndpoint_trace tok cfg req).sublist.count_le _
      _ = 1 := hcount

/-- C6 witness: each exception kind thrown by a concrete handler. -/
theorem C6_exception_mapping_witness :
    (validatedHandler (cfgThrow (.notFound "missing user")) reqPlain).reply =
      .errorReply 404 "Not Found" "missing user" none ∧
    (validatedHandler
        (cfgThrow (.validationErr [⟨"body.email", "taken"⟩])) reqPlain).reply =
      .errorReply 400 "Bad Request" "Validation failed"
        (some [⟨"body.email", "taken"⟩]) ∧
    (validatedHandler
        (cfgThrow (.responseValidationErr [⟨"root", "bad"⟩])) reqPlain).reply =
      .errorReply 500 "Internal Server Error"
        "Response validation failed - server returned invalid data"
        (some [⟨"root", "bad"⟩]) ∧
    (validatedHandler (cfgThrow (.other "TypeError")) reqPlain).reply =
      .rethrown "TypeError" ∧
    (@runEndpoint Nat (.secret "s") cfgPlain
        reqPlain).trace.count Step.handlerInvocation ≤ 1 := by
  have h := @C6_exception_mapping Nat
  exact ⟨h.1 (cfgThrow (.notFound "missing user")) reqPlain none none none
      "missing user" (by rfl) (by rfl),
    h.2.1 (cfgThrow (.validationErr [⟨"body.email", "taken"⟩])) reqPlain
      none none none _ (by rfl) (by rfl),
    h.2.2.1 (cfgThrow (.responseValidationErr [⟨"root", "bad"⟩])) reqPlain
      none none none _ (by rfl) (by rfl),
    h.2.2.2.1 (cfgThrow (.other "TypeError")) reqPlain none none none
      "TypeError" (by rfl) (by rfl),
    h.2.2.2.2 (.secret "s") cfgPlain reqPlain⟩

/-! ### Strict-mode unknown-key rejection (C4) -/

/-- An input key not in the declared list is an unknown key. -/
lemma mem_unknownKeys (declared : List String)
    (input : List (String × JValue)) (key : String)
    (hin : key ∈ input.map Prod.fst) (hout : key ∉ declared) :
    key ∈ unknownKeys declared input := by
  unfold unknownKeys
  rw [List.mem_filter]
  exact ⟨hin, by simpa using hout⟩

/-- C4: validating any declared part whose (object) schema does not
declare a field present in the input fails — after `applyStrict` the
parse rejects the value, the details contain the strict-mode field
error whose message names every unrecognized key, and the offending key
is among them; other fields' validity is irrelevant. -/
theorem C4_strict_rejects_unknown_fields :
    ∀ (origin : String) (fields : List (String × FieldSchema)) (st : Bool)
      (input : List (String × JValue)) (key : String),
      key ∈ input.map Prod.fst → key ∉ fields.map Prod.fst →
      ∃ d, validatePart origin (some (.zobject fields st)) (.obj input) =
          .error d ∧
        (⟨origin ++ "." ++ joinDot [],
          unrecognizedMsg (unknownKeys (fields.map Prod.fst) input)⟩ :
            FieldError) ∈ d ∧
        key ∈ unknownKeys (fields.map Prod.fst) input := by
  intro origin fields st input key hin hout
  have hk : key ∈ unknownKeys (fields.map Prod.fst) input :=
    mem_unknownKeys (fields.map Prod.fst) input key hin hout
  have hne : unknownKeys (fields.map Prod.fst) input ≠ [] :=
    List.ne_nil_of_mem hk
  have hsp : safeParse (applyStrict (.zobject fields st)) (.obj input) =
      .error ((parseFields fields input).1 ++
        [⟨[], unrecognizedMsg (unknownKeys (fields.map Prod.fst) input)⟩]) := by
    show safeParse (.zobject fields true) (.obj input) = _
    unfold safeParse
    dsimp only
    rw [if_pos (⟨rfl, hne⟩ :
      (true = true) ∧ unknownKeys (fields.map Prod.fst) input ≠ [])]
    rw [if_neg (by simp)]
  refine ⟨((parseFields fields input).1 ++
      [(⟨[], unrecognizedMsg (unknownKeys (fields.map Prod.fst) input)⟩ :
        ZodIssue)]).map (fieldErrorOfIssue origin), ?_, ?_, hk⟩
  · unfold validatePart
    dsimp only
    rw [hsp]
  · exact List.mem_map_of_mem (fieldErrorOfIssue origin)
      (List.mem_append_right _ (List.mem_singleton.mpr rfl))

/-- C4 witness: the other field (`q`) is valid, yet the undeclared
`extra` field makes validation fail with an error naming it. -/
theorem C4_strict_rejects_unknown_witness :
    ∃ d, validatePart "query" (some (.zobject [("q", .fnum)] false))
        (.obj [("q", .num 1), ("extra", .str "x")]) = .error d ∧
      (⟨"query" ++ "." ++ joinDot [],
        unrecognizedMsg (unknownKeys ([("q", FieldSchema.fnum)].map Prod.fst)
          [("q", .num 1), ("extra", .str "x")])⟩ : FieldError) ∈ d ∧
      "extra" ∈ unknownKeys ([("q", FieldSchema.fnum)].map Prod.fst)
        [("q", .num 1), ("extra", .str "x")] :=
  C4_strict_rejects_unknown_fields "query" [("q", .fnum)] false
    [("q", .num 1), ("extra", .str "x")] "extra" (by decide) (by decide)

end BitfocusApi
